import Mathlib

/-!
Verification of the feedback-intel worker (`src/index.ts`).

The TypeScript source is shallowly embedded below.  JavaScript strings are
modelled as Lean `String` (`toLowerCase` restricted to its ASCII action,
which covers every keyword and label the code compares against), JavaScript
numbers in the priority computation are modelled exactly as IEEE-754
binary64 values represented by an integer mantissa/exponent pair, the D1
`feedback` table is a list of rows with `Option`-typed nullable columns,
and the external collaborators (Workers AI, `crypto.subtle`, the system
clock, `Date` parsing, UUID generation) are explicit function parameters.
The durable `step.do` checkpointing of Cloudflare Workflows is not part of
the repository; it is modelled from the specification (a persisted map
from step name to completed result, consulted before running a step).
-/

set_option maxRecDepth 200000

namespace FeedbackIntel

/-! ## String primitives (JS `toLowerCase`, `includes`, `trim`, `split`, `substring`) -/

/-- JS `String.prototype.toLowerCase`, restricted to its ASCII action. -/
def lowerStr (s : String) : String := String.mk (s.data.map Char.toLower)

/-- Is `pat` a contiguous subsequence of `l`?  Backs JS `String.prototype.includes`. -/
def subSeq (pat : List Char) : List Char → Bool
  | [] => pat.isEmpty
  | c :: t => pat.isPrefixOf (c :: t) || subSeq pat t

/-- JS `s.includes(pat)`. -/
def strContains (s pat : String) : Bool := subSeq pat.data s.data

/-- JS `String.prototype.trim` (whitespace at both ends removed). -/
def trimStr (s : String) : String :=
  String.mk (((s.data.dropWhile Char.isWhitespace).reverse.dropWhile Char.isWhitespace).reverse)

/-- JS `s.split(',')` on the character list. -/
def splitCommaGo : List Char → List Char → List (List Char)
  | [], acc => [acc.reverse]
  | c :: t, acc => if c = ',' then acc.reverse :: splitCommaGo t [] else splitCommaGo t (c :: acc)

/-- JS `s.split(',')`. -/
def splitComma (s : String) : List String := (splitCommaGo s.data []).map String.mk

/-- JS `s.substring(0, n)`. -/
def takeStr (s : String) (n : ℕ) : String := String.mk (s.data.take n)

/-! ## Constant tables from `src/index.ts` -/

def TIER_ARR : List (String × ℤ) := [("enterprise", 50000), ("pro", 5000), ("free", 0)]

def TIER_WEIGHT : List (String × ℤ) := [("enterprise", 10), ("pro", 5), ("free", 1)]

def SEVERITY_WEIGHT : List (String × ℤ) :=
  [("critical", 10), ("high", 7), ("medium", 4), ("low", 1)]

def SENTIMENT_WEIGHT : List (String × ℤ) :=
  [("negative", 10), ("neutral", 5), ("positive", 1)]

def THEME_KEYWORDS : List (String × List String) :=
  [ ("documentation", ["docs", "documentation", "guide", "tutorial", "example", "outdated", "confusing"])
  , ("reliability", ["down", "outage", "error", "fail", "crash", "broken", "unstable", "timeout"])
  , ("performance", ["slow", "latency", "speed", "fast", "performance", "cold start"])
  , ("dx", ["developer experience", "wrangler", "cli", "sdk", "api", "typescript", "tooling"])
  , ("pricing", ["price", "cost", "billing", "expensive", "cheap", "free tier", "credits"])
  , ("features", ["feature", "request", "would be", "should", "wish", "need", "want", "missing"])
  , ("support", ["support", "help", "response", "ticket", "resolved"])
  , ("security", ["security", "auth", "permission", "403", "401", "access", "token"]) ]

/-- The taxonomy: `Object.keys(THEME_KEYWORDS)`. -/
def themeNames : List String := THEME_KEYWORDS.map Prod.fst

/-- `criticalKw` of the `classify-urgency` step in `src/index.ts`. -/
def criticalKw : List String :=
  ["urgent", "down", "outage", "production", "critical", "emergency", "asap", "sla"]

/-- `criticalKeywords` of the `classify-urgency` step in the `part_001` variant
(adds "immediately"). -/
def criticalKwV1 : List String :=
  ["urgent", "down", "outage", "production", "critical", "emergency", "asap", "immediately", "sla"]

/-- `highKw` / `highKeywords` (identical in both variants). -/
def highKw : List String :=
  ["broken", "fail", "error", "blocked", "cannot", "stuck", "alternative", "leaving"]

/-! ## `extract-themes` step (`src/index.ts` lines 59-75) -/

/-- Keyword pass of `extract-themes`: themes whose keyword list hits the
lowercased content, in declaration order (`Object.entries` order). -/
def detectedThemes (content : String) : List String :=
  let contentLower := lowerStr content
  (THEME_KEYWORDS.filter (fun p => p.2.any (fun kw => strContains contentLower kw))).map Prod.fst

/-- The constrained prompt sent to the provider by `extract-themes`. -/
def themesPrompt (content : String) : String :=
  "Classify into 1-2 themes (documentation, reliability, performance, dx, pricing, features, support, security): \""
    ++ takeStr content 300 ++ "\"\n\nReply with ONLY comma-separated themes."

/-- Parsing of the provider response in `extract-themes`:
`response.toLowerCase().split(',').map(trim).filter(in taxonomy)`. -/
def filterAiThemes (resp : String) : List String :=
  ((splitComma (lowerStr resp)).map trimStr).filter (fun t => themeNames.contains t)

/-- The `extract-themes` step of `src/index.ts`.  `llama` is the
`@cf/meta/llama-3.1-8b-instruct` call; `none` models a thrown error. -/
def extractThemes (llama : String → Option String) (content : String) : List String :=
  let detected := detectedThemes content
  if detected.isEmpty then
    match llama (themesPrompt content) with
    | none => ["general"]
    | some resp =>
      let aiThemes := filterAiThemes resp
      if aiThemes.isEmpty then ["general"] else aiThemes
  else detected.take 3

/-! ## `classify-urgency` step (`src/index.ts` lines 77-88, `part_001` lines 120-160) -/

/-- The `classify-urgency` step of `src/index.ts`.  No provider call occurs in
this variant: the no-keyword case returns "low" directly. -/
def classifyUrgency (content tier0 : String) : String :=
  let contentLower := lowerStr content
  let tier := lowerStr tier0
  let hasCritical := criticalKw.any (fun kw => strContains contentLower kw)
  let hasHigh := highKw.any (fun kw => strContains contentLower kw)
  if tier == "enterprise" && (hasCritical || hasHigh) then "critical"
  else if hasCritical then (if tier == "enterprise" then "critical" else "high")
  else if hasHigh then (if tier == "enterprise" then "high" else "medium")
  else "low"

/-- The constrained prompt of the `part_001` urgency fallback. -/
def urgencyPrompt (tier content : String) : String :=
  "Rate urgency as: critical, high, medium, or low.\nCustomer tier: " ++ tier
    ++ "\nFeedback: \"" ++ takeStr content 300
    ++ "\"\n\nReply with ONLY one word: critical, high, medium, or low"

def validUrgencies : List String := ["critical", "high", "medium", "low"]

/-- The `classify-urgency` step of the `part_001` variant: same keyword rules
(with `criticalKwV1`), then a provider fallback defaulting to "medium". -/
def classifyUrgencyV1 (llama : String → Option String) (content tier0 : String) : String :=
  let contentLower := lowerStr content
  let tier := lowerStr tier0
  let hasCritical := criticalKwV1.any (fun kw => strContains contentLower kw)
  let hasHigh := highKw.any (fun kw => strContains contentLower kw)
  if tier == "enterprise" && (hasCritical || hasHigh) then "critical"
  else if hasCritical then (if tier == "enterprise" then "critical" else "high")
  else if hasHigh then (if tier == "enterprise" then "high" else "medium")
  else
    match llama (urgencyPrompt tier content) with
    | none => "medium"
    | some r =>
      let result := trimStr (lowerStr (if r == "" then "medium" else r))
      if validUrgencies.contains result then result else "medium"

/-! ## IEEE-754 binary64 model

JavaScript numbers are binary64 floats.  A finite positive double is
represented as `⟨m, e⟩` with value `m * 2^e`; every operation below
re-normalises its exact integer result to a 53-bit mantissa with
round-to-nearest, ties-to-even, which is exactly IEEE rounding in the
normal range (the priority computation never leaves it). -/

/-- Fuel-driven bit length of a natural number (`0 ↦ 0`, `n ↦ ⌊log2 n⌋ + 1`).
The fuel argument makes the recursion structural so the kernel can run it. -/
def bitlenGo : ℕ → ℕ → ℕ
  | 0, _ => 0
  | fuel + 1, n => if n = 0 then 0 else bitlenGo fuel (n / 2) + 1

/-- Bit length of a natural number. -/
def bitlen (n : ℕ) : ℕ := bitlenGo n n

/-- Round `m / 2^s` to the nearest integer, ties to even.  `m.fdiv (2^s)` is
the floored quotient and `m - ⌊m/2^s⌋·2^s` the (non-negative) remainder. -/
def roundTE (m : ℤ) (s : ℕ) : ℤ :=
  if 2 * (m - m.fdiv (2 ^ s) * 2 ^ s) < 2 ^ s then m.fdiv (2 ^ s)
  else if (2 : ℤ) ^ s < 2 * (m - m.fdiv (2 ^ s) * 2 ^ s) then m.fdiv (2 ^ s) + 1
  else if m.fdiv (2 ^ s) % 2 = 0 then m.fdiv (2 ^ s) else m.fdiv (2 ^ s) + 1

/-- A binary64 value `m * 2^e` (finite; normalised to `2^52 ≤ |m| < 2^53`
by `norm` except for the zero `⟨0, 0⟩`). -/
structure D where
  m : ℤ
  e : ℤ
deriving DecidableEq, Repr

/-- Normalise the exact value `m * 2^e` to binary64: shift small mantissas up,
round mantissas wider than 53 bits to nearest (ties even), fixing up the
carry when rounding overflows to 54 bits. -/
def norm (m : ℤ) (e : ℤ) : D :=
  if m = 0 then ⟨0, 0⟩
  else if bitlen m.natAbs ≤ 53 then
    ⟨m * 2 ^ (53 - bitlen m.natAbs), e - ((53 - bitlen m.natAbs : ℕ) : ℤ)⟩
  else if bitlen (roundTE m (bitlen m.natAbs - 53)).natAbs = 54 then
    ⟨roundTE m (bitlen m.natAbs - 53) / 2, e + ((bitlen m.natAbs - 53 : ℕ) : ℤ) + 1⟩
  else ⟨roundTE m (bitlen m.natAbs - 53), e + ((bitlen m.natAbs - 53 : ℕ) : ℤ)⟩

/-- The double closest to an integer (exact below `2^53`). -/
def ofInt (n : ℤ) : D := norm n 0

/-- Binary64 multiplication (round-to-nearest of the exact product). -/
def dmul (a b : D) : D := norm (a.m * b.m) (a.e + b.e)

/-- The mantissa of `a` rebased to the exponent `e ≤ a.e` (exact). -/
def rebase (a : D) (e : ℤ) : ℤ := a.m * 2 ^ (a.e - e).toNat

/-- The common (smaller) exponent used to align two doubles exactly. -/
def commonExp (a b : D) : ℤ := if a.e ≤ b.e then a.e else b.e

/-- Binary64 addition (round-to-nearest of the exact sum). -/
def dadd (a b : D) : D :=
  norm (rebase a (commonExp a b) + rebase b (commonExp a b)) (commonExp a b)

/-- Exact value comparison `a < b` of two doubles. -/
def dltB (a b : D) : Bool :=
  rebase a (commonExp a b) < rebase b (commonExp a b)

/-- Exact value comparison `a ≤ b` of two doubles. -/
def dleB (a b : D) : Bool := !(dltB b a)

/-- JS `Math.min(a, b)` on (non-NaN) doubles. -/
def jsMinD (a b : D) : D := if dltB a b then a else b

/-- JS `Math.round`: nearest integer to the exact double value, ties toward
`+∞`, i.e. `⌊x + 1/2⌋`. -/
def jsRoundD (a : D) : ℤ :=
  if 0 ≤ a.e then a.m * 2 ^ a.e.toNat
  else (a.m + 2 ^ (-a.e - 1).toNat).fdiv (2 ^ (-a.e).toNat)

/-- The binary64 value of the literal `0.4`. -/
def c04 : D := ⟨7205759403792794, -54⟩

/-- The binary64 value of the literal `0.3`. -/
def c03 : D := ⟨5404319552844595, -54⟩

/-- The binary64 value of the literal `0.2`. -/
def c02 : D := ⟨7205759403792794, -55⟩

/-- The binary64 value of the literal `0.1`. -/
def c01 : D := ⟨7205759403792794, -56⟩

/-- The binary64 value of the literal `0.5` (exact). -/
def c05 : D := ⟨4503599627370496, -53⟩

/-! ## `calculate-priority` step (`src/index.ts` lines 99-106) -/

/-- JS `Math.max` on integers. -/
def iMax (a b : ℤ) : ℤ := if a ≤ b then b else a

/-- JS `Math.min` on integers. -/
def iMin (a b : ℤ) : ℤ := if a ≤ b then a else b

/-- `Math.max(1, Math.floor((Date.now() - new Date(created_at).getTime()) / 86400000))`.
Both timestamps are millisecond epoch integers; the floored double division
is the floored exact division at these magnitudes. -/
def daysOld (nowMs createdMs : ℤ) : ℤ := iMax 1 ((nowMs - createdMs).fdiv 86400000)

/-- `Math.min(daysOld * 0.5, 5)` evaluated in binary64. -/
def ageWeightD (d : ℤ) : D := jsMinD (dmul (ofInt d) c05) (ofInt 5)

/-- The body of `calculate-priority` after the weight lookups, in binary64:
`Math.round(((tierW*0.4)+(sevW*0.3)+(sentW*0.2)+(Math.min(daysOld*0.5,5)*0.1))*10)`.
The returned integer is the score in tenths (the step returns it divided
by ten, which is exact in the decimal reading of the result). -/
def priorityFromWeights (tw sw pw d : ℤ) : ℤ :=
  let ageW := ageWeightD d
  let score := dadd (dadd (dadd (dmul (ofInt tw) c04) (dmul (ofInt sw) c03))
      (dmul (ofInt pw) c02)) (dmul ageW c01)
  jsRoundD (dmul score (ofInt 10))

/-- The `calculate-priority` step of `src/index.ts`, in tenths of a point:
weight lookups (`|| default` on absent keys; no table value is `0`, so
`getD` models `||`) followed by the binary64 weighted sum. -/
def calculatePriorityTenths (tier urg sent : String) (d : ℤ) : ℤ :=
  priorityFromWeights ((TIER_WEIGHT.lookup (lowerStr tier)).getD 1)
    ((SEVERITY_WEIGHT.lookup urg).getD 4)
    ((SENTIMENT_WEIGHT.lookup sent).getD 5) d

/-- The claimed formula (spec §4.6), exactly: one hundred times
`tierW*0.4 + sevW*0.3 + sentW*0.2 + min(daysOld*0.5, 5)*0.1`,
which is an integer. -/
def specScore100 (tw sw pw d : ℤ) : ℤ := tw * 40 + sw * 30 + pw * 20 + iMin (d * 5) 50

/-- The claimed rounded score in tenths: `round1` of the exact formula with
half-up rounding (the convention fixed by the claim's own `9.05 → 9.1`
example): `⌊score*10 + 1/2⌋ = ⌊(score100 + 5)/10⌋`. -/
def specRound1Tenths (tw sw pw d : ℤ) : ℤ := (specScore100 tw sw pw d + 5).fdiv 10

/-! ## `analyze-sentiment` step (`src/index.ts` lines 47-57)

The DistilBERT call is an external provider: it is a parameter returning
`some (label, confidence)` or `none` for a thrown error.  The confidence is
an abstract rational; `Math.round(score*100)/100` is half-up rounding. -/

/-- JS `Math.round` on an exact rational: `⌊x + 1/2⌋`. -/
def jsRoundQ (q : ℚ) : ℤ := ⌊q + 1 / 2⌋

/-- `Math.round(score * 100) / 100`. -/
def round2 (q : ℚ) : ℚ := (jsRoundQ (q * 100) : ℚ) / 100

/-- The `analyze-sentiment` step: label defaulting (`result.label || 'NEUTRAL'`),
sign adjustment of the confidence, discretisation to the three labels, and
2-decimal rounding; a provider error degrades to `("neutral", 0)`. -/
def analyzeSentiment (distil : String → Option (String × ℚ)) (content : String) : String × ℚ :=
  match distil (takeStr content 512) with
  | none => ("neutral", 0)
  | some (label0, conf) =>
    let label := lowerStr (if label0 == "" then "NEUTRAL" else label0)
    let score := if label == "positive" then conf else -conf
    let sentiment := if label == "positive" then "positive"
      else if label == "negative" then "negative" else "neutral"
    (sentiment, round2 score)

/-! ## `generate-summary` step (`src/index.ts` lines 90-97) -/

/-- The summary prompt. -/
def summaryPrompt (content : String) : String :=
  "Summarize in max 12 words: \"" ++ takeStr content 400 ++ "\"\n\nReply with ONLY the summary."

/-- The `generate-summary` step: provider text truncated to 100 chars and
trimmed; a provider error falls back to an 80-char prefix with an ellipsis. -/
def generateSummary (llama : String → Option String) (content : String) : String :=
  match llama (summaryPrompt content) with
  | some r => trimStr (takeStr r 100)
  | none => takeStr content 80 ++ "..."

/-- The `calculate-priority` step's returned number: the tenths value over ten. -/
def calculatePriorityQ (tier urg sent : String) (d : ℤ) : ℚ :=
  (calculatePriorityTenths tier urg sent d : ℚ) / 10

/-- `TIER_ARR[customer_tier.toLowerCase()] || 0` (the only `0` value maps to
`0` either way, so `getD` models `||`). -/
def arrEstimate (tier : String) : ℤ := (TIER_ARR.lookup (lowerStr tier)).getD 0

/-! ## The `feedback` table (schema of `schema.sql` plus the extended
`priority_score` / `arr_estimate` columns bound by `src/index.ts`) -/

/-- One row of the `feedback` table.  Enrichment columns are nullable. -/
structure Row where
  id : String
  source : String
  content : String
  content_hash : String
  author : String
  customer_tier : String
  created_at : String
  sentiment : Option String
  sentiment_score : Option ℚ
  urgency : Option String
  themes : Option (List String)
  summary : Option String
  priority_score : Option ℚ
  arr_estimate : Option ℤ
  processed_at : Option String
deriving DecidableEq, Repr

/-- The `feedback` table. -/
abbrev Db := List Row

/-- The `store-results` step (`src/index.ts` lines 108-111): a single
`UPDATE feedback SET sentiment=?, sentiment_score=?, urgency=?, themes=?,
summary=?, priority_score=?, arr_estimate=?, processed_at=? WHERE id=?`. -/
def storeResults (db : Db) (fid : String) (s : String × ℚ) (urg : String)
    (themes : List String) (summary : String) (prio : ℚ) (arr : ℤ) (nowIso : String) : Db :=
  db.map (fun r =>
    if r.id = fid then
      { r with sentiment := some s.1, sentiment_score := some s.2, urgency := some urg,
               themes := some themes, summary := some summary, priority_score := some prio,
               arr_estimate := some arr, processed_at := some nowIso }
    else r)

/-! ## The workflow (`MyWorkflow.run`) with durable step checkpoints -/

/-- The workflow payload (`FeedbackPayload`; the optional `author` field is
not read by `run`). -/
structure FeedbackPayload where
  id : String
  source : String
  content : String
  customer_tier : String
  created_at : String
deriving DecidableEq, Repr

/-- External collaborators of one run: the two AI models, `Date` parsing of
`created_at`, `Date.now()`, and the `toISOString` stamp taken at store time. -/
structure WorkflowEnv where
  distil : String → Option (String × ℚ)
  llama : String → Option String
  parseMs : String → ℤ
  nowMs : ℤ
  nowIso : String

/-- Modelled from the spec: the durable-execution state of Cloudflare
Workflows' `step.do`, which is not part of this repository — "a persisted
map from step-identifier to completed result", one optional slot per named
step of `MyWorkflow.run` (§4.7, §9 of the specification). -/
structure Checkpoints where
  sent : Option (String × ℚ)
  them : Option (List String)
  urg : Option String
  summ : Option String
  prio : Option ℚ
  stored : Bool
deriving DecidableEq, Repr

/-- The empty checkpoint store of a fresh run. -/
def Checkpoints.empty : Checkpoints := ⟨none, none, none, none, none, false⟩

/-- The result of (the modelled) `MyWorkflow.run`: the updated table, the
provider invocations performed (by step name), and the checkpoint store. -/
structure RunOut where
  db : Db
  calls : List String
  cps : Checkpoints
deriving Repr

/-- Modelled from the spec: `MyWorkflow.run` driven by `step.do` durable
checkpointing (a step already present in the checkpoint store is skipped —
its cached result is returned without re-running its closure; a freshly run
step's result is persisted).  The step bodies themselves are the
translations of `src/index.ts` above.  `calls` records each `env.AI.run`
invocation site that actually executes. -/
def runWorkflow (env : WorkflowEnv) (fb : FeedbackPayload) (cp : Checkpoints) (db : Db) : RunOut :=
  let s := match cp.sent with | some v => v | none => analyzeSentiment env.distil fb.content
  let cS : List String := match cp.sent with | some _ => [] | none => ["analyze-sentiment"]
  let t := match cp.them with | some v => v | none => extractThemes env.llama fb.content
  let cT : List String := match cp.them with
    | some _ => []
    | none => if (detectedThemes fb.content).isEmpty then ["extract-themes"] else []
  let u := match cp.urg with | some v => v | none => classifyUrgency fb.content fb.customer_tier
  let m := match cp.summ with | some v => v | none => generateSummary env.llama fb.content
  let cM : List String := match cp.summ with | some _ => [] | none => ["generate-summary"]
  let p := match cp.prio with
    | some v => v
    | none => calculatePriorityQ fb.customer_tier u s.1 (daysOld env.nowMs (env.parseMs fb.created_at))
  let db' := if cp.stored then db
    else storeResults db fb.id s u t m p (arrEstimate fb.customer_tier) env.nowIso
  { db := db'
    calls := cS ++ cT ++ cM
    cps := { sent := some s, them := some t, urg := some u, summ := some m,
             prio := some p, stored := true } }

/-- Canonical value of the `analyze-sentiment` step for a payload. -/
def sent0 (env : WorkflowEnv) (fb : FeedbackPayload) : String × ℚ :=
  analyzeSentiment env.distil fb.content

/-- Canonical value of the `extract-themes` step. -/
def them0 (env : WorkflowEnv) (fb : FeedbackPayload) : List String :=
  extractThemes env.llama fb.content

/-- Canonical value of the `classify-urgency` step. -/
def urg0 (fb : FeedbackPayload) : String := classifyUrgency fb.content fb.customer_tier

/-- Canonical value of the `generate-summary` step. -/
def summ0 (env : WorkflowEnv) (fb : FeedbackPayload) : String :=
  generateSummary env.llama fb.content

/-- Canonical value of the `calculate-priority` step. -/
def prio0 (env : WorkflowEnv) (fb : FeedbackPayload) : ℚ :=
  calculatePriorityQ fb.customer_tier (urg0 fb) (sent0 env fb).1
    (daysOld env.nowMs (env.parseMs fb.created_at))

/-- The checkpoint store persisted after the first `k` steps of a run
completed (step order: sentiment, themes, urgency, summary, priority,
store) — the state a run interrupted after step `k` resumes from. -/
def cpAfter (env : WorkflowEnv) (fb : FeedbackPayload) (k : ℕ) : Checkpoints :=
  { sent := if 1 ≤ k then some (sent0 env fb) else none
    them := if 2 ≤ k then some (them0 env fb) else none
    urg := if 3 ≤ k then some (urg0 fb) else none
    summ := if 4 ≤ k then some (summ0 env fb) else none
    prio := if 5 ≤ k then some (prio0 env fb) else none
    stored := decide (6 ≤ k) }

/-- The table state after the first `k` steps of a run completed: the store
step's write has happened exactly when step 6 completed. -/
def dbAfter (env : WorkflowEnv) (fb : FeedbackPayload) (k : ℕ) (db : Db) : Db :=
  if 6 ≤ k then
    storeResults db fb.id (sent0 env fb) (urg0 fb) (them0 env fb) (summ0 env fb)
      (prio0 env fb) (arrEstimate fb.customer_tier) env.nowIso
  else db

/-! ## Content fingerprint and the sheets importer
(`src/index.ts` lines 127-158) -/

/-- One hex digit (`Number.prototype.toString(16)` digit alphabet). -/
def hexDigitChar (n : ℕ) : Char := Char.ofNat (if n < 10 then 48 + n else 87 + n)

/-- `b.toString(16).padStart(2, '0')` for one byte. -/
def byteHex (b : ℕ) : List Char := [hexDigitChar (b / 16 % 16), hexDigitChar (b % 16)]

/-- `hashContent`: hex string of the digest bytes, truncated to 32 chars.
`digest` is the external `crypto.subtle.digest('SHA-256', ·)` byte sequence
(an arbitrary function of the content, since it is a platform primitive). -/
def hashContent (digest : String → List ℕ) (content : String) : String :=
  String.mk ((((digest content).map byteHex).flatten).take 32)

/-- External collaborators of the importer: the digest, `crypto.randomUUID()`
for the next row, `new Date(ts).toISOString()` and the current timestamp. -/
structure ImportCtx where
  digest : String → List ℕ
  genId : String
  isoOf : String → String
  nowIso : String

/-- A freshly inserted `feedback` row: the base columns (and the
`arr_estimate` bound at insert time); every other enrichment column null
(`INSERT INTO feedback (id, source, content, content_hash, author,
customer_tier, arr_estimate, created_at) VALUES (?,?,?,?,?,?,?,?)`). -/
def mkFreshRow (id source content content_hash author customer_tier : String)
    (arr : ℤ) (created_at : String) : Row :=
  { id := id, source := source, content := content, content_hash := content_hash,
    author := author, customer_tier := customer_tier, created_at := created_at,
    sentiment := none, sentiment_score := none, urgency := none, themes := none,
    summary := none, priority_score := none, arr_estimate := some arr,
    processed_at := none }

/-- The per-row body of `importFromSheets`: guard on short/empty rows, the
fingerprint lookup (`SELECT id FROM feedback WHERE content_hash=?`), and on
a miss the insert plus the workflow enqueue (returned as `some payload`). -/
def importRow (ctx : ImportCtx) (sourceName : String) (db : Db) (row : List String) :
    Db × Option FeedbackPayload :=
  if row.length < 3 || trimStr (row.getD 0 "") == "" then (db, none)
  else
    let content := row.getD 0 ""
    let author := row.getD 1 ""
    let customer_tier := row.getD 2 ""
    let contentHash := hashContent ctx.digest content
    if db.any (fun r => r.content_hash == contentHash) then (db, none)
    else
      let normalizedTier := trimStr (lowerStr (if customer_tier == "" then "free" else customer_tier))
      let created_at := match row.get? 3 with
        | some ts => if ts == "" then ctx.nowIso else ctx.isoOf ts
        | none => ctx.nowIso
      (db ++ [mkFreshRow ctx.genId sourceName (trimStr content) contentHash
          (if author == "" then "anonymous" else author) normalizedTier
          ((TIER_ARR.lookup normalizedTier).getD 0) created_at],
       some { id := ctx.genId, source := sourceName, content := trimStr content,
              customer_tier := normalizedTier, created_at := created_at })

/-- The table states reachable through the program's write paths: the empty
table, a fresh insert (importer or `POST /api/feedback` — both insert only
base columns plus `arr_estimate`), the workflow's single `store-results`
update, and `POST /api/clear`. -/
inductive Reachable : Db → Prop where
  | nil : Reachable []
  | insert (db : Db) (id source content content_hash author customer_tier : String)
      (arr : ℤ) (created_at : String) : Reachable db →
      Reachable (db ++ [mkFreshRow id source content content_hash author customer_tier arr created_at])
  | store (db : Db) (fid : String) (s : String × ℚ) (urg : String) (themes : List String)
      (summary : String) (prio : ℚ) (arr : ℤ) (nowIso : String) : Reachable db →
      Reachable (storeResults db fid s urg themes summary prio arr nowIso)
  | clearAll (db : Db) : Reachable db → Reachable []

/-! ## Supporting lemmas -/

theorem bitlenGo_zero (f : ℕ) : bitlenGo f 0 = 0 := by
  cases f <;> simp [bitlenGo]

theorem bitlenGo_spec : ∀ fuel n, n ≤ fuel → 0 < n →
    1 ≤ bitlenGo fuel n ∧ 2 ^ (bitlenGo fuel n - 1) ≤ n ∧ n < 2 ^ bitlenGo fuel n := by
  intro fuel
  induction fuel with
  | zero => intro n hn h0; omega
  | succ f ih =>
    intro n hn h0
    have hne : ¬ n = 0 := by omega
    simp only [bitlenGo, hne, if_false]
    rcases Nat.eq_zero_or_pos (n / 2) with h2 | h2
    · have hn1 : n = 1 := by omega
      subst hn1
      simp [bitlenGo_zero]
    · have hle : n / 2 ≤ f := by omega
      obtain ⟨h1, hlo, hhi⟩ := ih (n / 2) hle h2
      refine ⟨by omega, ?_, ?_⟩
      · have hstep : 2 ^ (bitlenGo f (n / 2) - 1) * 2 ≤ (n / 2) * 2 := by omega
        have hpow : 2 ^ (bitlenGo f (n / 2) + 1 - 1) = 2 ^ (bitlenGo f (n / 2) - 1) * 2 := by
          rw [Nat.add_sub_cancel, ← pow_succ]
          congr 1
          omega
        omega
      · have hstep : n < (n / 2 + 1) * 2 := by omega
        have h2' : (n / 2 + 1) * 2 ≤ 2 ^ bitlenGo f (n / 2) * 2 := by omega
        have hpow : 2 ^ (bitlenGo f (n / 2) + 1) = 2 ^ bitlenGo f (n / 2) * 2 := pow_succ 2 _
        omega

theorem bitlen_spec (n : ℕ) (h0 : 0 < n) :
    1 ≤ bitlen n ∧ 2 ^ (bitlen n - 1) ≤ n ∧ n < 2 ^ bitlen n :=
  bitlenGo_spec n n le_rfl h0

theorem bitlen_eq_of_bounds {n b : ℕ} (h0 : 0 < n) (hb : 1 ≤ b)
    (hlo : 2 ^ (b - 1) ≤ n) (hhi : n < 2 ^ b) : bitlen n = b := by
  obtain ⟨h1, hlo', hhi'⟩ := bitlen_spec n h0
  by_contra hne
  rcases Nat.lt_or_ge (bitlen n) b with h | h
  · have : 2 ^ bitlen n ≤ 2 ^ (b - 1) := Nat.pow_le_pow_right (by omega) (by omega)
    omega
  · have hgt : b < bitlen n := by omega
    have : 2 ^ b ≤ 2 ^ (bitlen n - 1) := Nat.pow_le_pow_right (by omega) (by omega)
    omega

theorem bitlen_mul_pow2 {n : ℕ} (h0 : 0 < n) (k : ℕ) : bitlen (n * 2 ^ k) = bitlen n + k := by
  obtain ⟨h1, hlo, hhi⟩ := bitlen_spec n h0
  refine bitlen_eq_of_bounds (by positivity) (by omega) ?_ ?_
  · calc 2 ^ (bitlen n + k - 1) = 2 ^ (bitlen n - 1) * 2 ^ k := by
          rw [← pow_add]; congr 1; omega
      _ ≤ n * 2 ^ k := Nat.mul_le_mul_right _ hlo
  · calc n * 2 ^ k < 2 ^ bitlen n * 2 ^ k :=
        Nat.mul_lt_mul_of_lt_of_le hhi le_rfl (by positivity)
      _ = 2 ^ (bitlen n + k) := by rw [← pow_add]

theorem roundTE_bounds (m : ℤ) (s : ℕ) :
    m.fdiv (2 ^ s) ≤ roundTE m s ∧ roundTE m s ≤ m.fdiv (2 ^ s) + 1 := by
  unfold roundTE
  split_ifs <;> omega

theorem roundTE_exact (n : ℤ) (s : ℕ) : roundTE (n * 2 ^ s) s = n := by
  have hq : (n * 2 ^ s).fdiv (2 ^ s) = n := Int.mul_fdiv_cancel _ (by positivity)
  simp only [roundTE, hq, sub_self, mul_zero]
  rw [if_pos (by positivity)]


/-- Exact rational value of a double. -/
def dval (a : D) : ℚ := (a.m : ℚ) * (2 : ℚ) ^ a.e

theorem two_zpow_pos (e : ℤ) : (0 : ℚ) < (2 : ℚ) ^ e := zpow_pos (by norm_num) e

/-- A normalised positive double: 53-bit positive mantissa. -/
def Canon (a : D) : Prop := 0 < a.m ∧ bitlen a.m.natAbs = 53

theorem natAbs_cast_eq {m : ℤ} (hm : 0 < m) : (m.natAbs : ℤ) = m :=
  Int.natAbs_of_nonneg hm.le

theorem norm_small_eq {m : ℤ} (hm : 0 < m) (hb : bitlen m.natAbs ≤ 53) (e : ℤ) :
    norm m e = ⟨m * 2 ^ (53 - bitlen m.natAbs), e - ((53 - bitlen m.natAbs : ℕ) : ℤ)⟩ := by
  unfold norm
  rw [if_neg hm.ne', if_pos hb]

theorem norm_canon {m : ℤ} (hm : 0 < m) (e : ℤ) : Canon (norm m e) := by
  have hna : 0 < m.natAbs := Int.natAbs_pos.2 hm.ne'
  obtain ⟨hb1, hblo, hbhi⟩ := bitlen_spec m.natAbs hna
  by_cases hb : bitlen m.natAbs ≤ 53
  · rw [norm_small_eq hm hb]
    constructor
    · exact mul_pos hm (by positivity)
    · have : (m * 2 ^ (53 - bitlen m.natAbs)).natAbs = m.natAbs * 2 ^ (53 - bitlen m.natAbs) := by
        rw [Int.natAbs_mul, Int.natAbs_pow]
        rfl
      rw [this, bitlen_mul_pow2 hna]
      omega
  · -- wide mantissa: round to 53 bits
    push_neg at hb
    set b := bitlen m.natAbs with hbdef
    set s := b - 53 with hsdef
    have hs1 : 1 ≤ s := by omega
    have hpow_pos : (0:ℤ) < 2 ^ s := by positivity
    have hfd : m.fdiv (2 ^ s) = m / 2 ^ s := Int.fdiv_eq_ediv m (by positivity)
    have hmlo : (2:ℤ) ^ (b - 1) ≤ m := by
      calc (2:ℤ) ^ (b - 1) = ((2 ^ (b - 1) : ℕ) : ℤ) := by push_cast; ring
        _ ≤ (m.natAbs : ℤ) := by exact_mod_cast hblo
        _ = m := natAbs_cast_eq hm
    have hmhi : m < (2:ℤ) ^ b := by
      calc m = (m.natAbs : ℤ) := (natAbs_cast_eq hm).symm
        _ < ((2 ^ b : ℕ) : ℤ) := by exact_mod_cast hbhi
        _ = (2:ℤ) ^ b := by push_cast; ring
    have hqlo : (2:ℤ) ^ 52 ≤ m / 2 ^ s := by
      rw [Int.le_ediv_iff_mul_le hpow_pos, ← pow_add]
      calc (2:ℤ) ^ (52 + s) = 2 ^ (b - 1) := by congr 1; omega
        _ ≤ m := hmlo
    have hqhi : m / 2 ^ s < (2:ℤ) ^ 53 := by
      rw [Int.ediv_lt_iff_lt_mul hpow_pos, ← pow_add]
      calc m < (2:ℤ) ^ b := hmhi
        _ = 2 ^ (53 + s) := by congr 1; omega
    obtain ⟨hr1, hr2⟩ := roundTE_bounds m s
    rw [hfd] at hr1 hr2
    have hq_pos : 0 < roundTE m s := lt_of_lt_of_le (by positivity) (le_trans hqlo hr1)
    have hq_le : roundTE m s ≤ 2 ^ 53 := by omega
    unfold norm
    rw [if_neg hm.ne', if_neg (by omega)]
    by_cases h54 : bitlen (roundTE m s).natAbs = 54
    · rw [if_pos h54]
      obtain ⟨_, hqlo', _⟩ := bitlen_spec (roundTE m s).natAbs (Int.natAbs_pos.2 hq_pos.ne')
      rw [h54] at hqlo'
      have hq_ge : (2:ℤ) ^ 53 ≤ roundTE m s := by
        calc (2:ℤ) ^ 53 = ((2 ^ (54 - 1) : ℕ) : ℤ) := by norm_num
          _ ≤ ((roundTE m s).natAbs : ℤ) := by exact_mod_cast hqlo'
          _ = roundTE m s := natAbs_cast_eq hq_pos
      have hq_eq : roundTE m s = 2 ^ 53 := le_antisymm hq_le hq_ge
      constructor
      · simp only [hq_eq]
        norm_num
      · have : (roundTE m s / 2).natAbs = 2 ^ 52 := by
          rw [hq_eq]
          rfl
        rw [this]
        have h52 : (2:ℕ) ^ 52 = 1 * 2 ^ 52 := by ring
        rw [h52, bitlen_mul_pow2 (by norm_num)]
        rfl
    · rw [if_neg h54]
      have hq_lt : roundTE m s < 2 ^ 53 := by
        rcases lt_or_eq_of_le hq_le with h | h
        · exact h
        · exfalso
          apply h54
          have : (roundTE m s).natAbs = 2 ^ 53 := by
            rw [h]
            rfl
          rw [this]
          have h53 : (2:ℕ) ^ 53 = 1 * 2 ^ 53 := by ring
          rw [h53, bitlen_mul_pow2 (by norm_num)]
          rfl
      constructor
      · exact hq_pos
      · apply bitlen_eq_of_bounds (Int.natAbs_pos.2 hq_pos.ne') (by omega)
        · have : (2:ℤ) ^ 52 ≤ roundTE m s := le_trans hqlo hr1
          have hcast : ((2 ^ (53 - 1) : ℕ) : ℤ) ≤ ((roundTE m s).natAbs : ℤ) := by
            rw [natAbs_cast_eq hq_pos]
            calc ((2 ^ (53 - 1) : ℕ) : ℤ) = (2:ℤ) ^ 52 := by norm_num
              _ ≤ roundTE m s := this
          exact_mod_cast hcast
        · have hcast : ((roundTE m s).natAbs : ℤ) < ((2 ^ 53 : ℕ) : ℤ) := by
            rw [natAbs_cast_eq hq_pos]
            calc roundTE m s < (2:ℤ) ^ 53 := hq_lt
              _ = ((2 ^ 53 : ℕ) : ℤ) := by norm_num
          exact_mod_cast hcast


theorem zpow_split (e : ℤ) (k : ℕ) : (2:ℚ) ^ (e - k) * (2:ℚ) ^ (k:ℤ) = (2:ℚ) ^ e := by
  rw [← zpow_add₀ (by norm_num : (2:ℚ) ≠ 0)]
  congr 1
  omega

theorem dval_shift (m : ℤ) (e : ℤ) (k : ℕ) :
    dval ⟨m * 2 ^ k, e - k⟩ = dval ⟨m, e⟩ := by
  unfold dval
  push_cast
  rw [mul_assoc, mul_comm ((2:ℚ) ^ k), ← zpow_natCast (2:ℚ) k, zpow_split]

theorem norm_small_val {m : ℤ} (hm : 0 < m) (hb : bitlen m.natAbs ≤ 53) (e : ℤ) :
    dval (norm m e) = dval ⟨m, e⟩ := by
  rw [norm_small_eq hm hb, dval_shift]

theorem norm_big_val_ge {m : ℤ} (hm : 0 < m) (hb : 54 ≤ bitlen m.natAbs) (e : ℤ) :
    (2:ℚ) ^ 53 * (2:ℚ) ^ e ≤ dval (norm m e) := by
  have hna : 0 < m.natAbs := Int.natAbs_pos.2 hm.ne'
  obtain ⟨hb1, hblo, hbhi⟩ := bitlen_spec m.natAbs hna
  set b := bitlen m.natAbs with hbdef
  set s := b - 53 with hsdef
  have hs1 : 1 ≤ s := by omega
  have hpow_pos : (0:ℤ) < 2 ^ s := by positivity
  have hfd : m.fdiv (2 ^ s) = m / 2 ^ s := Int.fdiv_eq_ediv m (by positivity)
  have hmlo : (2:ℤ) ^ (b - 1) ≤ m := by
    calc (2:ℤ) ^ (b - 1) = ((2 ^ (b - 1) : ℕ) : ℤ) := by push_cast; ring
      _ ≤ (m.natAbs : ℤ) := by exact_mod_cast hblo
      _ = m := natAbs_cast_eq hm
  have hqlo : (2:ℤ) ^ 52 ≤ m / 2 ^ s := by
    rw [Int.le_ediv_iff_mul_le hpow_pos, ← pow_add]
    calc (2:ℤ) ^ (52 + s) = 2 ^ (b - 1) := by congr 1; omega
      _ ≤ m := hmlo
  obtain ⟨hr1, _⟩ := roundTE_bounds m s
  rw [hfd] at hr1
  have hq_ge : (2:ℤ) ^ 52 ≤ roundTE m s := le_trans hqlo hr1
  have hq_pos : 0 < roundTE m s := lt_of_lt_of_le (by positivity) hq_ge
  unfold norm
  rw [if_neg hm.ne', if_neg (by omega)]
  by_cases h54 : bitlen (roundTE m s).natAbs = 54
  · rw [if_pos h54]
    obtain ⟨_, hqlo', _⟩ := bitlen_spec (roundTE m s).natAbs (Int.natAbs_pos.2 hq_pos.ne')
    rw [h54] at hqlo'
    have hq_ge53 : (2:ℤ) ^ 53 ≤ roundTE m s := by
      calc (2:ℤ) ^ 53 = ((2 ^ (54 - 1) : ℕ) : ℤ) := by norm_num
        _ ≤ ((roundTE m s).natAbs : ℤ) := by exact_mod_cast hqlo'
        _ = roundTE m s := natAbs_cast_eq hq_pos
    have hhalf : (2:ℤ) ^ 52 ≤ roundTE m s / 2 := by
      rw [Int.le_ediv_iff_mul_le (by norm_num : (0:ℤ) < 2)]
      calc (2:ℤ) ^ 52 * 2 = 2 ^ 53 := by ring
        _ ≤ roundTE m s := hq_ge53
    unfold dval
    simp only
    have hle : ((2:ℤ)^52 : ℚ) ≤ ((roundTE m s / 2 : ℤ) : ℚ) := by exact_mod_cast hhalf
    calc (2:ℚ) ^ 53 * (2:ℚ) ^ e
        ≤ ((2:ℤ)^52 : ℚ) * (2:ℚ) ^ (e + s + 1) := by
          push_cast
          rw [show (2:ℚ)^(52:ℕ) * (2:ℚ) ^ (e + s + 1) = (2:ℚ)^(52:ℕ) * ((2:ℚ)^(e+1) * (2:ℚ)^(s:ℤ)) from by
            rw [← zpow_add₀ (by norm_num : (2:ℚ) ≠ 0)]; ring_nf]
          rw [show (2:ℚ) ^ (53:ℕ) * (2:ℚ) ^ e = (2:ℚ)^(52:ℕ) * ((2:ℚ)^(e+1) * 1) from by
            rw [mul_one, ← zpow_natCast (2:ℚ) 52, ← zpow_natCast (2:ℚ) 53,
              ← zpow_add₀ (by norm_num : (2:ℚ) ≠ 0), ← zpow_add₀ (by norm_num : (2:ℚ) ≠ 0)]
            congr 1; omega]
          have h1 : (1:ℚ) ≤ (2:ℚ)^(s:ℤ) := one_le_zpow₀ (by norm_num) (by positivity)
          have h2 : (0:ℚ) < (2:ℚ)^(e+1) := two_zpow_pos _
          nlinarith [pow_pos (show (0:ℚ) < 2 by norm_num) 52]
      _ ≤ ((roundTE m s / 2 : ℤ) : ℚ) * (2:ℚ) ^ (e + s + 1) :=
          mul_le_mul_of_nonneg_right hle (two_zpow_pos _).le
  · rw [if_neg h54]
    unfold dval
    simp only
    have hle : ((2:ℤ)^52 : ℚ) ≤ ((roundTE m s : ℤ) : ℚ) := by exact_mod_cast hq_ge
    calc (2:ℚ) ^ 53 * (2:ℚ) ^ e
        ≤ ((2:ℤ)^52 : ℚ) * (2:ℚ) ^ (e + s) := by
          push_cast
          rw [show (2:ℚ)^(52:ℕ) * (2:ℚ) ^ (e + s) = (2:ℚ)^(52:ℕ) * ((2:ℚ)^(e+1) * (2:ℚ)^((s:ℤ)-1)) from by
            rw [← zpow_add₀ (by norm_num : (2:ℚ) ≠ 0)]; ring_nf]
          rw [show (2:ℚ) ^ (53:ℕ) * (2:ℚ) ^ e = (2:ℚ)^(52:ℕ) * ((2:ℚ)^(e+1) * 1) from by
            rw [mul_one, ← zpow_natCast (2:ℚ) 52, ← zpow_natCast (2:ℚ) 53,
              ← zpow_add₀ (by norm_num : (2:ℚ) ≠ 0), ← zpow_add₀ (by norm_num : (2:ℚ) ≠ 0)]
            congr 1; omega]
          have h1 : (1:ℚ) ≤ (2:ℚ)^((s:ℤ)-1) := one_le_zpow₀ (by norm_num) (by omega)
          have h2 : (0:ℚ) < (2:ℚ)^(e+1) := two_zpow_pos _
          nlinarith [pow_pos (show (0:ℚ) < 2 by norm_num) 52]
      _ ≤ ((roundTE m s : ℤ) : ℚ) * (2:ℚ) ^ (e + s) :=
          mul_le_mul_of_nonneg_right hle (two_zpow_pos _).le


theorem commonExp_le_left (a b : D) : commonExp a b ≤ a.e := by
  unfold commonExp
  split_ifs with h
  · exact le_rfl
  · omega

theorem commonExp_le_right (a b : D) : commonExp a b ≤ b.e := by
  unfold commonExp
  split_ifs with h
  · exact h
  · exact le_rfl

theorem dval_rebase {a : D} {e : ℤ} (h : e ≤ a.e) :
    ((rebase a e : ℤ) : ℚ) * (2:ℚ) ^ e = dval a := by
  unfold rebase dval
  push_cast
  rw [mul_assoc, ← zpow_natCast (2:ℚ) (a.e - e).toNat, Int.toNat_of_nonneg (by omega),
    ← zpow_add₀ (by norm_num : (2:ℚ) ≠ 0)]
  congr 2
  omega

theorem dltB_iff (a b : D) : dltB a b = true ↔ dval a < dval b := by
  unfold dltB
  rw [decide_eq_true_iff]
  constructor
  · intro h
    rw [← dval_rebase (commonExp_le_left a b), ← dval_rebase (commonExp_le_right a b)]
    exact mul_lt_mul_of_pos_right (by exact_mod_cast h) (two_zpow_pos _)
  · intro h
    rw [← dval_rebase (commonExp_le_left a b), ← dval_rebase (commonExp_le_right a b)] at h
    exact_mod_cast (mul_lt_mul_right (two_zpow_pos (commonExp a b))).1 h

theorem dmul_c05_eq {a : D} (ha : Canon a) : dmul a c05 = ⟨a.m, a.e - 1⟩ := by
  obtain ⟨hpos, hbit⟩ := ha
  have hc : c05.m = 2 ^ 52 := by decide
  have hm' : a.m * c05.m = a.m * 2 ^ 52 := by rw [hc]
  have hnab : (a.m * 2 ^ 52).natAbs = a.m.natAbs * 2 ^ 52 := by
    rw [Int.natAbs_mul, Int.natAbs_pow]
    rfl
  have hbig : bitlen (a.m * 2 ^ 52).natAbs = 105 := by
    rw [hnab, bitlen_mul_pow2 (Int.natAbs_pos.2 hpos.ne'), hbit]
  have hne : ¬ a.m * 2 ^ 52 = 0 := (mul_pos hpos (by positivity : (0:ℤ) < 2 ^ 52)).ne'
  unfold dmul norm
  rw [hm', hbig]
  rw [if_neg hne, if_neg (by omega : ¬ (105:ℕ) ≤ 53)]
  have h52 : (105:ℕ) - 53 = 52 := by norm_num
  rw [h52, roundTE_exact a.m 52, hbit]
  rw [if_neg (by omega : ¬ (53:ℕ) = 54)]
  have hce : c05.e = -53 := by decide
  rw [hce]
  congr 1
  omega


theorem ofInt_canon {d : ℤ} (hd : 0 < d) : Canon (ofInt d) := norm_canon hd 0

theorem ofInt_val_ge_ten {d : ℤ} (hd : 10 ≤ d) : (10:ℚ) ≤ dval (ofInt d) := by
  have hpos : 0 < d := by omega
  unfold ofInt
  by_cases hb : bitlen d.natAbs ≤ 53
  · rw [norm_small_val hpos hb]
    unfold dval
    simp only [zpow_zero, mul_one]
    exact_mod_cast hd
  · have := norm_big_val_ge hpos (by omega) 0
    calc (10:ℚ) ≤ (2:ℚ) ^ 53 * (2:ℚ) ^ (0:ℤ) := by norm_num
      _ ≤ dval (norm d 0) := this

theorem ofInt_five_eq : ofInt 5 = ⟨5629499534213120, -50⟩ := by decide

theorem dval_ofInt_five : dval (ofInt 5) = 5 := by
  rw [ofInt_five_eq]
  unfold dval
  simp only
  rw [show ((-50 : ℤ)) = -((50 : ℕ) : ℤ) from rfl, zpow_neg, zpow_natCast]
  norm_num

theorem ageWeight_sat {d : ℤ} (hd : 10 ≤ d) : ageWeightD d = ofInt 5 := by
  have hC : Canon (ofInt d) := ofInt_canon (by omega)
  have hY := dmul_c05_eq hC
  have hge : (5:ℚ) ≤ dval (dmul (ofInt d) c05) := by
    rw [hY]
    unfold dval
    simp only
    rw [zpow_sub_one₀ (by norm_num : (2:ℚ) ≠ 0)]
    have h10 : (10:ℚ) ≤ dval (ofInt d) := ofInt_val_ge_ten hd
    unfold dval at h10
    calc (5:ℚ) = 10 * (2:ℚ)⁻¹ := by norm_num
      _ ≤ ((ofInt d).m : ℚ) * (2:ℚ) ^ (ofInt d).e * (2:ℚ)⁻¹ := by
          apply mul_le_mul_of_nonneg_right h10
          norm_num
      _ = ((ofInt d).m : ℚ) * ((2:ℚ) ^ (ofInt d).e * (2:ℚ)⁻¹) := by ring
  have hfalse : dltB (dmul (ofInt d) c05) (ofInt 5) = false := by
    rw [← Bool.not_eq_true, dltB_iff, dval_ofInt_five]
    exact not_lt.2 hge
  unfold ageWeightD jsMinD
  rw [hfalse]
  rfl


theorem ageWeight_ten : ageWeightD 10 = ofInt 5 := ageWeight_sat (by omega)

theorem priorityFromWeights_sat (tw sw pw : ℤ) {d : ℤ} (hd : 10 ≤ d) :
    priorityFromWeights tw sw pw d = priorityFromWeights tw sw pw 10 := by
  unfold priorityFromWeights
  rw [ageWeight_sat hd, ageWeight_ten]

theorem specScore100_sat (tw sw pw : ℤ) {d : ℤ} (hd : 10 ≤ d) :
    specScore100 tw sw pw d = specScore100 tw sw pw 10 := by
  unfold specScore100 iMin
  split_ifs <;> omega

theorem daysOld_ge_ten {nowMs createdMs : ℤ} (h : 10 * 86400000 ≤ nowMs - createdMs) :
    10 ≤ daysOld nowMs createdMs := by
  have hfd : (nowMs - createdMs).fdiv 86400000 = (nowMs - createdMs) / 86400000 :=
    Int.fdiv_eq_ediv _ (by norm_num)
  have h10 : (10:ℤ) ≤ (nowMs - createdMs) / 86400000 := by
    rw [Int.le_ediv_iff_mul_le (by norm_num : (0:ℤ) < 86400000)]
    omega
  unfold daysOld iMax
  rw [hfd]
  split_ifs <;> omega

theorem daysOld_pos (nowMs createdMs : ℤ) : 1 ≤ daysOld nowMs createdMs := by
  unfold daysOld iMax
  split_ifs <;> omega


theorem tierWeight_mem (t : String) :
    (TIER_WEIGHT.lookup t).getD 1 ∈ ([10, 5, 1] : List ℤ) := by
  simp only [TIER_WEIGHT, List.lookup]
  rcases h1 : t == "enterprise" <;> rcases h2 : t == "pro" <;> rcases h3 : t == "free" <;> simp

theorem sevWeight_mem (t : String) :
    (SEVERITY_WEIGHT.lookup t).getD 4 ∈ ([10, 7, 4, 1] : List ℤ) := by
  simp only [SEVERITY_WEIGHT, List.lookup]
  rcases h1 : t == "critical" <;> rcases h2 : t == "high" <;> rcases h3 : t == "medium" <;>
    rcases h4 : t == "low" <;> simp

theorem sentWeight_mem (t : String) :
    (SENTIMENT_WEIGHT.lookup t).getD 5 ∈ ([10, 5, 1] : List ℤ) := by
  simp only [SENTIMENT_WEIGHT, List.lookup]
  rcases h1 : t == "negative" <;> rcases h2 : t == "neutral" <;> rcases h3 : t == "positive" <;> simp


set_option maxHeartbeats 4000000 in
theorem priority_combo :
    ∀ tw ∈ ([10, 5, 1] : List ℤ), ∀ sw ∈ ([10, 7, 4, 1] : List ℤ),
    ∀ pw ∈ ([10, 5, 1] : List ℤ), ∀ d ∈ ([1, 2, 3, 4, 5, 6, 7, 8, 9, 10] : List ℤ),
      priorityFromWeights tw sw pw d = specRound1Tenths tw sw pw d ∨
        (specScore100 tw sw pw d % 10 = 5 ∧
          priorityFromWeights tw sw pw d = (specScore100 tw sw pw d).fdiv 10) := by
  decide

theorem priority_formula_aux {tw sw pw : ℤ} (htw : tw ∈ ([10, 5, 1] : List ℤ))
    (hsw : sw ∈ ([10, 7, 4, 1] : List ℤ)) (hpw : pw ∈ ([10, 5, 1] : List ℤ))
    {d : ℤ} (hd : 1 ≤ d) :
    priorityFromWeights tw sw pw d = specRound1Tenths tw sw pw d ∨
      (specScore100 tw sw pw d % 10 = 5 ∧
        priorityFromWeights tw sw pw d = (specScore100 tw sw pw d).fdiv 10) := by
  rcases le_or_lt d 10 with hle | hgt
  · have hmem : d ∈ ([1, 2, 3, 4, 5, 6, 7, 8, 9, 10] : List ℤ) := by
      interval_cases d <;> simp
    exact priority_combo tw htw sw hsw pw hpw d hmem
  · have h10 : (10:ℤ) ≤ d := by omega
    rw [priorityFromWeights_sat tw sw pw h10]
    rw [show specRound1Tenths tw sw pw d = specRound1Tenths tw sw pw 10 from by
      unfold specRound1Tenths
      rw [specScore100_sat tw sw pw h10]]
    rw [specScore100_sat tw sw pw h10]
    exact priority_combo tw htw sw hsw pw hpw 10 (by simp)


/-! ## Helpers for the theme and urgency claims -/

theorem take_three_ne_nil {l : List String} (h : l ≠ []) : l.take 3 ≠ [] := by
  cases l with
  | nil => exact absurd rfl h
  | cons a t => simp [List.take]

theorem extractThemes_ne_nil (llama : String → Option String) (content : String) :
    extractThemes llama content ≠ [] := by
  simp only [extractThemes]
  by_cases hdet : (detectedThemes content).isEmpty
  · rw [if_pos hdet]
    cases hl : llama (themesPrompt content) with
    | none => simp
    | some r =>
      show (if (filterAiThemes r).isEmpty = true then ["general"] else filterAiThemes r) ≠ []
      by_cases hai : (filterAiThemes r).isEmpty
      · simp [hai]
      · rw [if_neg hai]
        exact fun h => hai (by rw [h]; rfl)
  · rw [if_neg hdet]
    exact take_three_ne_nil (fun h => hdet (by rw [h]; rfl))

theorem detectedThemes_subset (content : String) :
    ∀ t ∈ detectedThemes content, t ∈ themeNames := by
  intro t ht
  unfold detectedThemes at ht
  unfold themeNames
  obtain ⟨p, hp, rfl⟩ := List.mem_map.1 ht
  exact List.mem_map_of_mem _ (List.mem_of_mem_filter hp)

theorem filterAiThemes_subset (r : String) : ∀ t ∈ filterAiThemes r, t ∈ themeNames := by
  intro t ht
  have := List.of_mem_filter ht
  simpa using this


theorem classifyUrgencyV1_fallback (llama : String → Option String) (content tier : String)
    (hc : criticalKwV1.any (fun kw => strContains (lowerStr content) kw) = false)
    (hh : highKw.any (fun kw => strContains (lowerStr content) kw) = false) :
    classifyUrgencyV1 llama content tier =
      match llama (urgencyPrompt (lowerStr tier) content) with
      | none => "medium"
      | some r =>
        if validUrgencies.contains (trimStr (lowerStr (if r == "" then "medium" else r))) then
          trimStr (lowerStr (if r == "" then "medium" else r))
        else "medium" := by
  simp only [classifyUrgencyV1]
  rw [hc, hh]
  cases ht : (lowerStr tier == "enterprise") <;> simp [ht]

/-! ## Claim theorems -/

/-- Claim C4 (counterexample): the text "broken" contains a high keyword and
no critical keyword, yet `classify-urgency` returns "critical" — not the
claimed "high" — for an enterprise customer, because the first rule
(`tier === 'enterprise' && (hasCritical || hasHigh)`) fires on high
keywords too. -/
theorem urgency_high_enterprise_counterexample :
    highKw.any (fun kw => strContains (lowerStr "broken") kw) = true ∧
    criticalKw.any (fun kw => strContains (lowerStr "broken") kw) = false ∧
    classifyUrgency "broken" "enterprise" = "critical" ∧
    classifyUrgency "broken" "enterprise" ≠ "high" := by
  decide

/-- Claim C4 (amended): for text containing a high keyword and no critical
keyword, `classify-urgency` returns "critical" when the (lowercased)
customer tier is enterprise — the enterprise boost applies to high keywords
as well — and "medium" for every other tier. -/
theorem urgency_high_keyword (content tier : String)
    (hh : highKw.any (fun kw => strContains (lowerStr content) kw) = true)
    (hc : criticalKw.any (fun kw => strContains (lowerStr content) kw) = false) :
    classifyUrgency content tier =
      (if lowerStr tier == "enterprise" then "critical" else "medium") := by
  simp only [classifyUrgency]
  rw [hh, hc]
  cases ht : (lowerStr tier == "enterprise") <;> simp [ht]

/-- Witness for C4's amended theorem at text "broken", tiers free and
enterprise. -/
theorem urgency_high_keyword_witness :
    (highKw.any (fun kw => strContains (lowerStr "broken") kw) = true ∧
      criticalKw.any (fun kw => strContains (lowerStr "broken") kw) = false) ∧
    classifyUrgency "broken" "free" = (if lowerStr "free" == "enterprise" then "critical" else "medium") ∧
    classifyUrgency "broken" "enterprise" =
      (if lowerStr "enterprise" == "enterprise" then "critical" else "medium") :=
  ⟨⟨by decide, by decide⟩, urgency_high_keyword "broken" "free" (by decide) (by decide),
    urgency_high_keyword "broken" "enterprise" (by decide) (by decide)⟩

/-- Claim C6: when no theme keyword matches the text, a provider error or a
filtered response with no valid taxonomy tag yields exactly `["general"]`;
and the returned theme list is never empty for any input and provider. -/
theorem theme_fallback_general :
    (∀ (llama : String → Option String) (content : String),
      detectedThemes content = [] →
      (llama (themesPrompt content) = none ∨
        ∀ r, llama (themesPrompt content) = some r → filterAiThemes r = []) →
      extractThemes llama content = ["general"]) ∧
    (∀ (llama : String → Option String) (content : String),
      extractThemes llama content ≠ []) := by
  constructor
  · intro llama content hdet hprov
    simp only [extractThemes]
    rw [hdet]
    simp only [List.isEmpty_nil, if_true]
    cases hl : llama (themesPrompt content) with
    | none => rfl
    | some r =>
      rcases hprov with h | h
      · rw [hl] at h
        exact absurd h (by simp)
      · simp [h r hl]
  · exact extractThemes_ne_nil

/-- Witness for C6 at text "zzz" (no keyword hits) with an erroring provider
and with a provider returning no valid tag. -/
theorem theme_fallback_general_witness :
    (detectedThemes "zzz" = [] ∧ extractThemes (fun _ => none) "zzz" = ["general"]) ∧
    extractThemes (fun _ => some "dragons, ponies") "zzz" = ["general"] ∧
    extractThemes (fun _ => none) "zzz" ≠ [] :=
  ⟨⟨by decide,
      theme_fallback_general.1 (fun _ => none) "zzz" (by decide) (Or.inl rfl)⟩,
    theme_fallback_general.1 (fun _ => some "dragons, ponies") "zzz" (by decide)
      (Or.inr (fun r hr => by
        simp only [Option.some.injEq] at hr
        rw [← hr]
        decide)),
    extractThemes_ne_nil (fun _ => none) "zzz"⟩

/-- Claim C7 (counterexample): on text with neither a critical nor a high
keyword, the `classify-urgency` step of `src/index.ts` returns "low"
directly — it has no provider fallback at all, so the claimed
provider-constrained fallback with default "medium" does not happen. -/
theorem urgency_no_keyword_counterexample :
    criticalKw.any (fun kw => strContains (lowerStr "hello") kw) = false ∧
    highKw.any (fun kw => strContains (lowerStr "hello") kw) = false ∧
    classifyUrgency "hello" "free" = "low" ∧
    classifyUrgency "hello" "free" ≠ "medium" := by
  decide

/-- Claim C7 (amended): on no-keyword text the `src/index.ts` variant
returns "low" with no provider call, while the `part_001` variant falls
back to the provider constrained to {critical, high, medium, low}: a
thrown call or an invalid/unparseable response yields "medium", and a
valid response is returned as parsed. -/
theorem urgency_no_keyword :
    (∀ content tier,
      criticalKw.any (fun kw => strContains (lowerStr content) kw) = false →
      highKw.any (fun kw => strContains (lowerStr content) kw) = false →
      classifyUrgency content tier = "low") ∧
    (∀ (llama : String → Option String) content tier,
      criticalKwV1.any (fun kw => strContains (lowerStr content) kw) = false →
      highKw.any (fun kw => strContains (lowerStr content) kw) = false →
      ((llama (urgencyPrompt (lowerStr tier) content) = none →
          classifyUrgencyV1 llama content tier = "medium") ∧
        (∀ r, llama (urgencyPrompt (lowerStr tier) content) = some r →
          validUrgencies.contains (trimStr (lowerStr (if r == "" then "medium" else r))) = false →
          classifyUrgencyV1 llama content tier = "medium") ∧
        (∀ r, llama (urgencyPrompt (lowerStr tier) content) = some r →
          validUrgencies.contains (trimStr (lowerStr (if r == "" then "medium" else r))) = true →
          classifyUrgencyV1 llama content tier =
            trimStr (lowerStr (if r == "" then "medium" else r))))) := by
  constructor
  · intro content tier hc hh
    simp only [classifyUrgency]
    rw [hc, hh]
    cases ht : (lowerStr tier == "enterprise") <;> simp [ht]
  · intro llama content tier hc hh
    refine ⟨?_, ?_, ?_⟩
    · intro hl
      rw [classifyUrgencyV1_fallback llama content tier hc hh, hl]
    · intro r hl hv
      rw [classifyUrgencyV1_fallback llama content tier hc hh, hl]
      simp only [hv, Bool.false_eq_true, if_false]
    · intro r hl hv
      rw [classifyUrgencyV1_fallback llama content tier hc hh, hl]
      simp only [hv, if_true]

/-- Witness for C7's amended theorem at text "hello", tier "free", with an
erroring provider, an invalid response, and a valid response. -/
theorem urgency_no_keyword_witness :
    classifyUrgency "hello" "free" = "low" ∧
    classifyUrgencyV1 (fun _ => none) "hello" "free" = "medium" ∧
    classifyUrgencyV1 (fun _ => some "banana") "hello" "free" = "medium" ∧
    classifyUrgencyV1 (fun _ => some " HIGH ") "hello" "free" =
      trimStr (lowerStr (if " HIGH " == "" then "medium" else " HIGH ")) :=
  ⟨urgency_no_keyword.1 "hello" "free" (by decide) (by decide),
    (urgency_no_keyword.2 (fun _ => none) "hello" "free" (by decide) (by decide)).1 rfl,
    (urgency_no_keyword.2 (fun _ => some "banana") "hello" "free" (by decide) (by decide)).2.1
      "banana" rfl (by decide),
    (urgency_no_keyword.2 (fun _ => some " HIGH ") "hello" "free" (by decide) (by decide)).2.2
      " HIGH " rfl (by decide)⟩

/-- Claim C8 (counterexample): on the keyword-free text "zzz", a provider
response listing four valid taxonomy tags makes `extract-themes` return
four themes — the AI-fallback path does not truncate to 3. -/
theorem themes_count_counterexample :
    detectedThemes "zzz" = [] ∧
    extractThemes (fun _ => some "reliability,performance,pricing,security") "zzz" =
      ["reliability", "performance", "pricing", "security"] ∧
    ¬ (extractThemes (fun _ => some "reliability,performance,pricing,security") "zzz").length ≤ 3 := by
  decide

/-- Claim C8 (amended): `extract-themes` always returns at least one tag,
each drawn from the fixed taxonomy or the fallback "general"; the keyword
path returns at most 3 tags, but the provider-fallback path returns every
valid tag of the response and can exceed 3. -/
theorem themes_taxonomy_bounds :
    (∀ (llama : String → Option String) (content : String),
      extractThemes llama content ≠ [] ∧
      ∀ t ∈ extractThemes llama content, t ∈ themeNames ∨ t = "general") ∧
    (∀ (llama : String → Option String) (content : String),
      detectedThemes content ≠ [] → (extractThemes llama content).length ≤ 3) := by
  constructor
  · intro llama content
    refine ⟨extractThemes_ne_nil llama content, ?_⟩
    intro t ht
    simp only [extractThemes] at ht
    by_cases hdet : (detectedThemes content).isEmpty
    · rw [if_pos hdet] at ht
      cases hl : llama (themesPrompt content) with
      | none =>
        rw [hl] at ht
        simp only [List.mem_singleton] at ht
        exact Or.inr ht
      | some r =>
        rw [hl] at ht
        replace ht : t ∈ (if (filterAiThemes r).isEmpty = true then ["general"]
            else filterAiThemes r) := ht
        by_cases hai : (filterAiThemes r).isEmpty
        · rw [if_pos hai] at ht
          simp only [List.mem_singleton] at ht
          exact Or.inr ht
        · rw [if_neg hai] at ht
          exact Or.inl (filterAiThemes_subset r t ht)
    · rw [if_neg hdet] at ht
      exact Or.inl (detectedThemes_subset content t (List.take_subset 3 _ ht))
  · intro llama content hdet
    simp only [extractThemes]
    rw [if_neg (by simpa using hdet)]
    simp [List.length_take]

/-- Witness for C8's amended theorem: bound-and-taxonomy instance on a
keyword text and on the AI path. -/
theorem themes_taxonomy_bounds_witness :
    (extractThemes (fun _ => none) "the docs are outdated" ≠ [] ∧
      ∀ t ∈ extractThemes (fun _ => none) "the docs are outdated",
        t ∈ themeNames ∨ t = "general") ∧
    (detectedThemes "the docs are outdated" ≠ [] ∧
      (extractThemes (fun _ => none) "the docs are outdated").length ≤ 3) :=
  ⟨themes_taxonomy_bounds.1 (fun _ => none) "the docs are outdated",
    ⟨by decide, themes_taxonomy_bounds.2 (fun _ => none) "the docs are outdated" (by decide)⟩⟩

theorem dltB_irrefl (a : D) : dltB a a = false := by
  unfold dltB
  simp

theorem dltB_asymm {a b : D} (h : dltB a b = true) : dltB b a = false := by
  rw [← Bool.not_eq_true, dltB_iff]
  rw [dltB_iff] at h
  exact not_lt.2 h.le

/-- Claim C2 (counterexample): at tier=pro, urgency=high, sentiment=negative,
age 1 day, the exact formula gives 6.15 which `round1` (half-up, the
convention fixed by the claim's own 9.05 → 9.1 example) rounds to 6.2, but
the step computes 6.1: the binary64 sum `5*0.4 + 7*0.3 + 10*0.2 + 0.05`
falls just below the exact tie, so `Math.round(score*10)` rounds down.
(Scores are stated in tenths: 61 is 6.1, 62 is 6.2.) -/
theorem priority_half_tie_counterexample :
    (TIER_WEIGHT.lookup (lowerStr "pro")).getD 1 = 5 ∧
    (SEVERITY_WEIGHT.lookup "high").getD 4 = 7 ∧
    (SENTIMENT_WEIGHT.lookup "negative").getD 5 = 10 ∧
    specRound1Tenths 5 7 10 1 = 62 ∧
    calculatePriorityTenths "pro" "high" "negative" 1 = 61 ∧
    calculatePriorityTenths "pro" "high" "negative" 1 ≠ specRound1Tenths 5 7 10 1 := by
  decide

/-- Claim C2 (amended): for every tier, urgency, sentiment and positive age
in days, `calculate-priority` returns (in tenths) either exactly
`round1(tierW*0.4 + sevW*0.3 + sentW*0.2 + min(d*0.5, 5)*0.1)` with half-up
rounding and the claimed weight tables (defaults tier→1, severity→4,
sentiment→5 on unknown labels), or — only when the exact score lands on a
.X5 tie — the rounded-down value, because the binary64 sum can fall below
the exact midpoint.  In particular enterprise/critical/negative/1-day gives
9.1 (91 tenths), and the same inputs always yield the same score. -/
theorem priority_score_formula :
    (∀ (tier urg sent : String) (d : ℤ), 1 ≤ d →
      calculatePriorityTenths tier urg sent d =
          specRound1Tenths ((TIER_WEIGHT.lookup (lowerStr tier)).getD 1)
            ((SEVERITY_WEIGHT.lookup urg).getD 4) ((SENTIMENT_WEIGHT.lookup sent).getD 5) d ∨
        (specScore100 ((TIER_WEIGHT.lookup (lowerStr tier)).getD 1)
            ((SEVERITY_WEIGHT.lookup urg).getD 4) ((SENTIMENT_WEIGHT.lookup sent).getD 5) d % 10 = 5 ∧
          calculatePriorityTenths tier urg sent d =
            (specScore100 ((TIER_WEIGHT.lookup (lowerStr tier)).getD 1)
              ((SEVERITY_WEIGHT.lookup urg).getD 4)
              ((SENTIMENT_WEIGHT.lookup sent).getD 5) d).fdiv 10)) ∧
    calculatePriorityTenths "enterprise" "critical" "negative" 1 = 91 ∧
    (∀ (tier urg sent : String) (d : ℤ),
      calculatePriorityTenths tier urg sent d = calculatePriorityTenths tier urg sent d) := by
  refine ⟨?_, by decide, fun _ _ _ _ => rfl⟩
  intro tier urg sent d hd
  unfold calculatePriorityTenths
  exact priority_formula_aux (tierWeight_mem (lowerStr tier)) (sevWeight_mem urg)
    (sentWeight_mem sent) hd

/-- Witness for C2's amended theorem at pro/high/negative and 2 days. -/
theorem priority_score_formula_witness :
    (1 : ℤ) ≤ 2 ∧
    (calculatePriorityTenths "pro" "high" "negative" 2 =
        specRound1Tenths ((TIER_WEIGHT.lookup (lowerStr "pro")).getD 1)
          ((SEVERITY_WEIGHT.lookup "high").getD 4) ((SENTIMENT_WEIGHT.lookup "negative").getD 5) 2 ∨
      (specScore100 ((TIER_WEIGHT.lookup (lowerStr "pro")).getD 1)
          ((SEVERITY_WEIGHT.lookup "high").getD 4) ((SENTIMENT_WEIGHT.lookup "negative").getD 5) 2 % 10 = 5 ∧
        calculatePriorityTenths "pro" "high" "negative" 2 =
          (specScore100 ((TIER_WEIGHT.lookup (lowerStr "pro")).getD 1)
            ((SEVERITY_WEIGHT.lookup "high").getD 4)
            ((SENTIMENT_WEIGHT.lookup "negative").getD 5) 2).fdiv 10)) :=
  ⟨by decide, priority_score_formula.1 "pro" "high" "negative" 2 (by decide)⟩

/-- Claim C9: the age-weight term `Math.min(daysOld*0.5, 5)` of the priority
score never exceeds the double 5 (for any pair of timestamps), and any two
items at least 10 days old receive exactly the same age contribution. -/
theorem age_cap :
    ∀ (nowMs c1 c2 : ℤ),
      dleB (ageWeightD (daysOld nowMs c1)) (ofInt 5) = true ∧
      (10 * 86400000 ≤ nowMs - c1 → 10 * 86400000 ≤ nowMs - c2 →
        ageWeightD (daysOld nowMs c1) = ageWeightD (daysOld nowMs c2)) := by
  intro nowMs c1 c2
  constructor
  · unfold ageWeightD jsMinD dleB
    cases h : dltB (dmul (ofInt (daysOld nowMs c1)) c05) (ofInt 5) with
    | false => simp [dltB_irrefl]
    | true => simp [dltB_asymm h]
  · intro h1 h2
    rw [ageWeight_sat (daysOld_ge_ten h1), ageWeight_sat (daysOld_ge_ten h2)]

/-- Witness for C9 at a 20-day-old and a 10-day-old item. -/
theorem age_cap_witness :
    (dleB (ageWeightD (daysOld 1728000000 0)) (ofInt 5) = true ∧
      ageWeightD (daysOld 1728000000 0) = ageWeightD (daysOld 1728000000 864000000)) ∧
    10 * 86400000 ≤ (1728000000 : ℤ) - 0 ∧ 10 * 86400000 ≤ (1728000000 : ℤ) - 864000000 :=
  ⟨⟨(age_cap 1728000000 0 864000000).1,
      (age_cap 1728000000 0 864000000).2 (by decide) (by decide)⟩,
    by decide, by decide⟩

/-- Claim C10: the `store-results` write touches only the row whose id
matches the payload id, and on that row only the enrichment columns: the
table length is unchanged, rows with a different id are untouched, and the
base columns id, source, content, content_hash, author, customer_tier and
created_at of every row are preserved. -/
theorem store_frame :
    ∀ (db : Db) (fid : String) (s : String × ℚ) (urg : String) (themes : List String)
      (summary : String) (prio : ℚ) (arr : ℤ) (nowIso : String),
      (storeResults db fid s urg themes summary prio arr nowIso).length = db.length ∧
      ∀ (i : ℕ) (h1 : i < db.length)
        (h2 : i < (storeResults db fid s urg themes summary prio arr nowIso).length),
        ((db.get ⟨i, h1⟩).id ≠ fid →
          (storeResults db fid s urg themes summary prio arr nowIso).get ⟨i, h2⟩ = db.get ⟨i, h1⟩) ∧
        ((storeResults db fid s urg themes summary prio arr nowIso).get ⟨i, h2⟩).id =
          (db.get ⟨i, h1⟩).id ∧
        ((storeResults db fid s urg themes summary prio arr nowIso).get ⟨i, h2⟩).source =
          (db.get ⟨i, h1⟩).source ∧
        ((storeResults db fid s urg themes summary prio arr nowIso).get ⟨i, h2⟩).content =
          (db.get ⟨i, h1⟩).content ∧
        ((storeResults db fid s urg themes summary prio arr nowIso).get ⟨i, h2⟩).content_hash =
          (db.get ⟨i, h1⟩).content_hash ∧
        ((storeResults db fid s urg themes summary prio arr nowIso).get ⟨i, h2⟩).author =
          (db.get ⟨i, h1⟩).author ∧
        ((storeResults db fid s urg themes summary prio arr nowIso).get ⟨i, h2⟩).customer_tier =
          (db.get ⟨i, h1⟩).customer_tier ∧
        ((storeResults db fid s urg themes summary prio arr nowIso).get ⟨i, h2⟩).created_at =
          (db.get ⟨i, h1⟩).created_at := by
  intro db fid s urg themes summary prio arr nowIso
  refine ⟨List.length_map _ _, ?_⟩
  intro i h1 h2
  simp only [storeResults, List.get_map]
  by_cases hid : (db.get ⟨i, h1⟩).id = fid
  · rw [if_pos hid]
    exact ⟨fun h => absurd hid h, rfl, rfl, rfl, rfl, rfl, rfl, rfl⟩
  · rw [if_neg hid]
    exact ⟨fun _ => rfl, rfl, rfl, rfl, rfl, rfl, rfl, rfl⟩

/-- Witness for C10 on a one-row table (the bound hypotheses are the index
bounds). -/
theorem store_frame_witness :
    (0 : ℕ) < ([mkFreshRow "a" "manual" "hi" "h" "anon" "free" 0 "t"] : Db).length ∧
    ((([mkFreshRow "a" "manual" "hi" "h" "anon" "free" 0 "t"] : Db).get ⟨0, by decide⟩).id ≠ "b" →
      (storeResults [mkFreshRow "a" "manual" "hi" "h" "anon" "free" 0 "t"] "b" ("neutral", 0)
          "low" ["general"] "s" 0 0 "t2").get ⟨0, by simp [storeResults]⟩ =
        ([mkFreshRow "a" "manual" "hi" "h" "anon" "free" 0 "t"] : Db).get ⟨0, by decide⟩) :=
  ⟨by decide,
    ((store_frame [mkFreshRow "a" "manual" "hi" "h" "anon" "free" 0 "t"] "b" ("neutral", 0)
        "low" ["general"] "s" 0 0 "t2").2 0 (by decide) (by simp [storeResults])).1⟩

/-- Claim C5: the single `store-results` `UPDATE` sets every enrichment
column together, so rows written by it have sentiment, sentiment_score,
urgency, themes, summary, priority_score, arr_estimate and processed_at all
non-null simultaneously; a completed run performs exactly that write; and on
every table state reachable through the program's writes, `processed_at` is
null iff no enrichment results have been written to the row. -/
theorem processed_at_atomicity :
    (∀ (db : Db) (fid : String) (s : String × ℚ) (urg : String) (themes : List String)
        (summary : String) (prio : ℚ) (arr : ℤ) (nowIso : String),
      ∀ r ∈ storeResults db fid s urg themes summary prio arr nowIso, r.id = fid →
        r.sentiment.isSome = true ∧ r.sentiment_score.isSome = true ∧
        r.urgency.isSome = true ∧ r.themes.isSome = true ∧ r.summary.isSome = true ∧
        r.priority_score.isSome = true ∧ r.arr_estimate.isSome = true ∧
        r.processed_at.isSome = true) ∧
    (∀ (env : WorkflowEnv) (fb : FeedbackPayload) (db : Db),
      (runWorkflow env fb Checkpoints.empty db).db =
        storeResults db fb.id (sent0 env fb) (urg0 fb) (them0 env fb) (summ0 env fb)
          (prio0 env fb) (arrEstimate fb.customer_tier) env.nowIso) ∧
    (∀ db : Db, Reachable db → ∀ r ∈ db,
      (r.processed_at = none ↔
        r.sentiment = none ∧ r.sentiment_score = none ∧ r.urgency = none ∧
        r.themes = none ∧ r.summary = none ∧ r.priority_score = none)) := by
  refine ⟨?_, ?_, ?_⟩
  · intro db fid s urg themes summary prio arr nowIso r hr hid
    unfold storeResults at hr
    rcases List.mem_map.1 hr with ⟨r0, hr0, rfl⟩
    by_cases h : r0.id = fid
    · rw [if_pos h]
      exact ⟨rfl, rfl, rfl, rfl, rfl, rfl, rfl, rfl⟩
    · rw [if_neg h] at hid
      exact absurd hid h
  · intro env fb db
    rfl
  · intro db hreach
    induction hreach with
    | nil => intro r hr; simp at hr
    | insert db id source content hash author tier arr created _ ih =>
      intro r hr
      rcases List.mem_append.1 hr with h | h
      · exact ih r h
      · simp only [List.mem_singleton] at h
        subst h
        simp [mkFreshRow]
    | store db fid s urg themes summary prio arr now _ ih =>
      intro r hr
      unfold storeResults at hr
      rcases List.mem_map.1 hr with ⟨r0, hr0, rfl⟩
      by_cases h : r0.id = fid
      · simp [if_pos h]
      · rw [if_neg h]
        exact ih r0 hr0
    | clearAll db _ ih => intro r hr; simp at hr

/-- Witness for C5: a freshly inserted row then stored; the invariant holds
on both reachable states, and the written row has every field set. -/
theorem processed_at_atomicity_witness :
    (∀ r ∈ storeResults [mkFreshRow "a" "manual" "hi" "h" "anon" "free" 0 "t"] "a"
        ("neutral", 0) "low" ["general"] "s" 0 0 "t2", r.id = "a" →
      r.sentiment.isSome = true ∧ r.sentiment_score.isSome = true ∧
      r.urgency.isSome = true ∧ r.themes.isSome = true ∧ r.summary.isSome = true ∧
      r.priority_score.isSome = true ∧ r.arr_estimate.isSome = true ∧
      r.processed_at.isSome = true) ∧
    Reachable (storeResults [mkFreshRow "a" "manual" "hi" "h" "anon" "free" 0 "t"] "a"
      ("neutral", 0) "low" ["general"] "s" 0 0 "t2") ∧
    (∀ r ∈ storeResults [mkFreshRow "a" "manual" "hi" "h" "anon" "free" 0 "t"] "a"
        ("neutral", 0) "low" ["general"] "s" 0 0 "t2",
      (r.processed_at = none ↔
        r.sentiment = none ∧ r.sentiment_score = none ∧ r.urgency = none ∧
        r.themes = none ∧ r.summary = none ∧ r.priority_score = none)) :=
  ⟨processed_at_atomicity.1 [mkFreshRow "a" "manual" "hi" "h" "anon" "free" 0 "t"] "a"
      ("neutral", 0) "low" ["general"] "s" 0 0 "t2",
    Reachable.store _ "a" ("neutral", 0) "low" ["general"] "s" 0 0 "t2"
      (by
        have h : ([mkFreshRow "a" "manual" "hi" "h" "anon" "free" 0 "t"] : Db) =
            [] ++ [mkFreshRow "a" "manual" "hi" "h" "anon" "free" 0 "t"] := rfl
        rw [h]
        exact Reachable.insert [] "a" "manual" "hi" "h" "anon" "free" 0 "t" Reachable.nil),
    processed_at_atomicity.2.2 _
      (Reachable.store _ "a" ("neutral", 0) "low" ["general"] "s" 0 0 "t2"
        (by
          have h : ([mkFreshRow "a" "manual" "hi" "h" "anon" "free" 0 "t"] : Db) =
              [] ++ [mkFreshRow "a" "manual" "hi" "h" "anon" "free" 0 "t"] := rfl
          rw [h]
          exact Reachable.insert [] "a" "manual" "hi" "h" "anon" "free" 0 "t" Reachable.nil))⟩

/-- Claim C3: the fingerprint is deterministic (a pure function of the
content for a fixed digest), and importing the same row twice on the same
digest yields exactly one stored record: the second import finds the
existing `content_hash` and performs neither the insert nor the workflow
enqueue, whatever its own UUID/clock externals are. -/
theorem import_dedup_idempotent :
    (∀ (digest : String → List ℕ) (c1 c2 : String), c1 = c2 →
      hashContent digest c1 = hashContent digest c2) ∧
    (∀ (ctx ctx2 : ImportCtx) (src src2 : String) (db : Db) (row : List String),
      ctx2.digest = ctx.digest →
      importRow ctx2 src2 (importRow ctx src db row).1 row =
        ((importRow ctx src db row).1, none)) ∧
    (∀ (ctx : ImportCtx) (src : String) (db : Db) (row : List String),
      (decide (row.length < 3) || trimStr (row.getD 0 "") == "") = false →
      db.any (fun r => r.content_hash == hashContent ctx.digest (row.getD 0 "")) = false →
      ((importRow ctx src db row).1.filter
        (fun r => r.content_hash == hashContent ctx.digest (row.getD 0 ""))).length = 1) := by
  refine ⟨fun digest c1 c2 h => by rw [h], ?_, ?_⟩
  · intro ctx ctx2 src src2 db row hdig
    by_cases hg : (decide (row.length < 3) || trimStr (row.getD 0 "") == "") = true
    · have h1 : importRow ctx src db row = (db, none) := by
        simp only [importRow]
        rw [if_pos hg]
      rw [h1]
      simp only [importRow]
      rw [if_pos hg]
    · rw [Bool.not_eq_true] at hg
      by_cases hex : db.any
          (fun r => r.content_hash == hashContent ctx.digest (row.getD 0 "")) = true
      · have h1 : importRow ctx src db row = (db, none) := by
          simp only [importRow]
          rw [if_neg (by rw [hg]; exact Bool.false_ne_true), if_pos hex]
        rw [h1]
        simp only [importRow]
        rw [if_neg (by rw [hg]; exact Bool.false_ne_true), if_pos (by rw [hdig]; exact hex)]
      · rw [Bool.not_eq_true] at hex
        simp only [importRow, hg, hex, Bool.false_eq_true, if_false]
        rw [if_pos (by
          rw [hdig, List.any_append, hex]
          simp [mkFreshRow])]
  · intro ctx src db row hg hex
    simp only [importRow]
    rw [if_neg (by rw [hg]; exact Bool.false_ne_true), if_neg (by rw [hex]; exact Bool.false_ne_true)]
    simp only [List.filter_append]
    rw [List.filter_eq_nil_iff.2 (by
      intro r hr
      have := List.any_eq_false.1 hex r hr
      simpa using this)]
    simp [mkFreshRow]

/-- Witness for C3: a concrete digest, row and empty table; the second pass
over the same row is a no-op and the table holds exactly one matching
record. -/
theorem import_dedup_idempotent_witness :
    hashContent (fun _ => [171, 205]) "hello" = hashContent (fun _ => [171, 205]) "hello" ∧
    importRow ⟨fun _ => [171, 205], "id2", fun s => s, "t2"⟩ "support"
        (importRow ⟨fun _ => [171, 205], "id1", fun s => s, "t1"⟩ "support" []
          ["hello", "alice", "pro"]).1 ["hello", "alice", "pro"] =
      ((importRow ⟨fun _ => [171, 205], "id1", fun s => s, "t1"⟩ "support" []
        ["hello", "alice", "pro"]).1, none) ∧
    ((decide ((["hello", "alice", "pro"] : List String).length < 3) ||
        trimStr ((["hello", "alice", "pro"] : List String).getD 0 "") == "") = false ∧
      (([] : Db).any (fun r => r.content_hash ==
        hashContent (fun _ => [171, 205]) ((["hello", "alice", "pro"] : List String).getD 0 ""))) = false) ∧
    ((importRow ⟨fun _ => [171, 205], "id1", fun s => s, "t1"⟩ "support" []
        ["hello", "alice", "pro"]).1.filter
      (fun r => r.content_hash ==
        hashContent (fun _ => [171, 205]) ((["hello", "alice", "pro"] : List String).getD 0 ""))).length = 1 :=
  ⟨import_dedup_idempotent.1 (fun _ => [171, 205]) "hello" "hello" rfl,
    import_dedup_idempotent.2.1 ⟨fun _ => [171, 205], "id1", fun s => s, "t1"⟩
      ⟨fun _ => [171, 205], "id2", fun s => s, "t2"⟩ "support" "support" []
      ["hello", "alice", "pro"] rfl,
    ⟨by decide, by decide⟩,
    import_dedup_idempotent.2.2 ⟨fun _ => [171, 205], "id1", fun s => s, "t1"⟩ "support" []
      ["hello", "alice", "pro"] (by decide) (by decide)⟩

/-- Claim C1: for every payload and every completed-step prefix `k`, a run
interrupted after step `k` and resumed from its persisted checkpoints (and
the table state it already produced) yields the same final stored table as
an uninterrupted run from the same starting table — the providers, clock
and date parser being fixed functions, i.e. deterministic — and, once the
sentiment step has completed (`k ≥ 1`), the resumed run never re-invokes
the sentiment provider call. -/
theorem workflow_resume :
    ∀ (env : WorkflowEnv) (fb : FeedbackPayload) (db : Db) (k : ℕ),
      (runWorkflow env fb (cpAfter env fb k) (dbAfter env fb k db)).db =
        (runWorkflow env fb Checkpoints.empty db).db ∧
      (1 ≤ k → "analyze-sentiment" ∉ (runWorkflow env fb (cpAfter env fb k) (dbAfter env fb k db)).calls) := by
  intro env fb db k
  constructor
  · by_cases h1 : 1 ≤ k <;> by_cases h2 : 2 ≤ k <;> by_cases h3 : 3 ≤ k <;>
      by_cases h4 : 4 ≤ k <;> by_cases h5 : 5 ≤ k <;> by_cases h6 : 6 ≤ k <;>
      simp [runWorkflow, cpAfter, dbAfter, Checkpoints.empty, sent0, them0, urg0, summ0, prio0,
        h1, h2, h3, h4, h5, h6]
  · intro hk
    by_cases h2 : 2 ≤ k <;> by_cases h4 : 4 ≤ k <;>
      simp [runWorkflow, cpAfter, dbAfter, Checkpoints.empty, hk, h2, h4]

/-- Witness for C1: a resume after the sentiment step (`k = 1`) on concrete
externals agrees with the uninterrupted run and makes no sentiment call. -/
theorem workflow_resume_witness :
    (runWorkflow ⟨fun _ => none, fun _ => none, fun _ => 0, 0, "t"⟩
        ⟨"a", "manual", "hi", "free", "t0"⟩
        (cpAfter ⟨fun _ => none, fun _ => none, fun _ => 0, 0, "t"⟩
          ⟨"a", "manual", "hi", "free", "t0"⟩ 1)
        (dbAfter ⟨fun _ => none, fun _ => none, fun _ => 0, 0, "t"⟩
          ⟨"a", "manual", "hi", "free", "t0"⟩ 1 [])).db =
      (runWorkflow ⟨fun _ => none, fun _ => none, fun _ => 0, 0, "t"⟩
        ⟨"a", "manual", "hi", "free", "t0"⟩ Checkpoints.empty []).db ∧
    "analyze-sentiment" ∉
      (runWorkflow ⟨fun _ => none, fun _ => none, fun _ => 0, 0, "t"⟩
        ⟨"a", "manual", "hi", "free", "t0"⟩
        (cpAfter ⟨fun _ => none, fun _ => none, fun _ => 0, 0, "t"⟩
          ⟨"a", "manual", "hi", "free", "t0"⟩ 1)
        (dbAfter ⟨fun _ => none, fun _ => none, fun _ => 0, 0, "t"⟩
          ⟨"a", "manual", "hi", "free", "t0"⟩ 1 [])).calls :=
  ⟨(workflow_resume ⟨fun _ => none, fun _ => none, fun _ => 0, 0, "t"⟩
      ⟨"a", "manual", "hi", "free", "t0"⟩ [] 1).1,
    (workflow_resume ⟨fun _ => none, fun _ => none, fun _ => 0, 0, "t"⟩
      ⟨"a", "manual", "hi", "free", "t0"⟩ [] 1).2 (by decide)⟩

end FeedbackIntel
